import Mathlib

/-!
Shallow embedding of the client-side network-resilience and
optimistic-cache-coordination layer of the persyste frontend:
the error taxonomy, retry loop, circuit breaker, request deduplicator and
API facade of src/services/api.ts, and the optimistic mutation handlers of
src/hooks/queries/useTodos.ts.  Each definition carries a pointer to the
source lines it embeds.
-/

namespace Persyste

/-- Data carried by an axios error response, as far as the code inspects it:
the HTTP status and the message/code fields of the response payload
(`error.response.status`, `error.response.data`). -/
structure AxiosResponseShape where
  status : Nat
  dataMessage : Option String
  dataCode : Option String
  deriving DecidableEq, Repr

/-- A raw AxiosError as inspected by transformError and the default retry
condition: `error.code`, `error.message`, `error.response` (none when no
response was received). -/
structure AxiosErrorShape where
  code : Option String
  message : String
  response : Option AxiosResponseShape
  deriving DecidableEq, Repr

/-- The classified error taxonomy of the facade
(classes ApiError / NetworkError / TimeoutError, api.ts lines 24-48). -/
inductive FrontendError where
  | apiError (message : String) (status : Option Nat) (code : Option String)
  | networkError (message : String)
  | timeoutError (message : String)
  deriving DecidableEq, Repr

/-- JavaScript `a || b` on strings: b when a is empty (falsy). -/
def jsOr (a b : String) : String := if a = "" then b else a

/-- ApiService.transformError (api.ts lines 266-283): classification of a raw
transport failure into exactly one taxonomy case. -/
def transformError (e : AxiosErrorShape) : FrontendError :=
  if e.code = some "ECONNABORTED" ∨ e.code = some "ETIMEDOUT" then
    .timeoutError "Request timeout"
  else
    match e.response with
    | none => .networkError "Network error - please check your connection"
    | some r =>
        .apiError (jsOr (r.dataMessage.getD "") (jsOr e.message "An error occurred"))
          (some r.status) r.dataCode

/-- An error caught by the retry loop: either a raw AxiosError (produced only
by requests that bypass the axios instance and its interceptors) or an error
the response interceptor has already classified via transformError; the
interceptor rejects with the transformed error (api.ts line 261), so
instance-routed failures reach the retry loop in the classified form. -/
inductive CaughtError where
  | axios (e : AxiosErrorShape)
  | classified (e : FrontendError)
  deriving DecidableEq, Repr

/-- defaultRetryConfig.retryCondition (api.ts lines 62-65):
`!error.response || (error.response.status >= 500 && error.response.status < 600)`. -/
def defaultRetryCondition (e : AxiosErrorShape) : Bool :=
  match e.response with
  | none => true
  | some r => decide (500 ≤ r.status) && decide (r.status < 600)

/-- RetryConfig (api.ts lines 51-56).  Delay fields are carried for fidelity
though no claim depends on them. -/
structure RetryConfig where
  maxRetries : Nat
  retryDelay : Nat
  retryCondition : Option (AxiosErrorShape → Bool)
  exponentialBackoff : Bool

/-- defaultRetryConfig (api.ts lines 58-66). -/
def defaultRetryConfig : RetryConfig :=
  { maxRetries := 3, retryDelay := 1000,
    retryCondition := some defaultRetryCondition, exponentialBackoff := true }

/-- Retry config used by ApiService.register (api.ts line 363), built as
`{ ...defaultRetryConfig, maxRetries: 1 }` under the comment
"Do not retry registration". -/
def registerRetryConfig : RetryConfig := { defaultRetryConfig with maxRetries := 1 }

/-- Retry config used by ApiService.login (api.ts line 372), built as
`{ ...defaultRetryConfig, maxRetries: 1 }` under the comment
"Do not retry login". -/
def loginRetryConfig : RetryConfig := { defaultRetryConfig with maxRetries := 1 }

/-- The guard in the retry loop catch block (api.ts lines 322-332): retrying
stops early exactly when the caught error is an instance of AxiosError, a
retryCondition is configured, and the condition rejects the error.  A
classified error is not an AxiosError, so for it the guard is never taken. -/
def stopsRetry (cfg : RetryConfig) (e : CaughtError) : Bool :=
  match e, cfg.retryCondition with
  | .axios ae, some cond => !cond ae
  | _, _ => false

/-- ApiService.retryRequest's loop (api.ts lines 285-345) over attempt
outcomes.  `attempts n` is the outcome the n-th transport invocation would
produce.  `fuel` is the number of retries still allowed, i.e.
cfg.maxRetries - attempt: the source loop runs attempt = 0 .. maxRetries and
breaks (re-raising the last error) when attempt = maxRetries, which is
fuel = 0 here.  Returns the final outcome and the number of transport
invocations performed. -/
def retryGo (cfg : RetryConfig) (attempts : Nat → Except CaughtError α) :
    Nat → Nat → Except CaughtError α × Nat
  | attempt, fuel =>
    match attempts attempt with
    | .ok v => (.ok v, attempt + 1)
    | .error e =>
      match fuel with
      | 0 => (.error e, attempt + 1)
      | f + 1 =>
        if stopsRetry cfg e then (.error e, attempt + 1)
        else retryGo cfg attempts (attempt + 1) f

/-- ApiService.retryRequest entry point: attempt 0 with cfg.maxRetries
retries available. -/
def retryRequest (cfg : RetryConfig) (attempts : Nat → Except CaughtError α) :
    Except CaughtError α × Nat :=
  retryGo cfg attempts 0 cfg.maxRetries

/-- Circuit breaker mode: "closed" | "open" | "half-open" (api.ts line 72). -/
inductive BreakerMode where
  | closed
  | opened
  | halfOpen
  deriving DecidableEq, Repr

/-- The mutable fields of class CircuitBreaker (api.ts lines 69-77). -/
structure BreakerState where
  failureCount : Nat
  lastFailureTime : Int
  mode : BreakerMode
  deriving DecidableEq, Repr

/-- Constructor parameters of CircuitBreaker (api.ts lines 74-77). -/
structure BreakerConfig where
  maxFailures : Nat
  resetTimeout : Int
  deriving DecidableEq, Repr

/-- The defaults: maxFailures = 5, resetTimeout = 60000 ms. -/
def defaultBreakerConfig : BreakerConfig := { maxFailures := 5, resetTimeout := 60000 }

/-- Initial breaker state: failureCount 0, closed. -/
def BreakerState.initial : BreakerState :=
  { failureCount := 0, lastFailureTime := 0, mode := .closed }

/-- CircuitBreaker.onSuccess (api.ts lines 101-104). -/
def onSuccess (s : BreakerState) : BreakerState :=
  { s with failureCount := 0, mode := .closed }

/-- CircuitBreaker.onFailure (api.ts lines 106-117): increment the count,
record the failure time, and transition to open when the count reaches
maxFailures. -/
def onFailure (cfg : BreakerConfig) (s : BreakerState) (now : Int) : BreakerState :=
  { failureCount := s.failureCount + 1, lastFailureTime := now,
    mode := if cfg.maxFailures ≤ s.failureCount + 1 then .opened else s.mode }

/-- Outcome of CircuitBreaker.execute.  `rejected` is the throw of
"Circuit breaker is open - service temporarily unavailable": the wrapped
operation is not invoked in that case. -/
inductive BreakerOutcome (ε α : Type) where
  | rejected
  | succeeded (a : α)
  | failed (e : ε)
  deriving DecidableEq, Repr

/-- CircuitBreaker.execute (api.ts lines 79-99).  `op` is the outcome the
wrapped operation would produce if invoked.  When the mode is open and
resetTimeout has not yet elapsed since lastFailureTime the call is rejected
without invoking `op`; when it has elapsed the breaker moves to half-open and
lets the call through; otherwise the call passes through directly.  A
successful call runs onSuccess, a failing one onFailure. -/
def execute (cfg : BreakerConfig) (s : BreakerState) (now : Int)
    (op : Except ε α) : BreakerOutcome ε α × BreakerState :=
  if s.mode = .opened ∧ now - s.lastFailureTime < cfg.resetTimeout then
    (.rejected, s)
  else
    let s1 := if s.mode = .opened then { s with mode := .halfOpen } else s
    match op with
    | .ok a => (.succeeded a, onSuccess s1)
    | .error e => (.failed e, onFailure cfg s1 now)

/-- ApiService.makeRequest (api.ts lines 347-355): the circuit breaker wraps
the whole retry loop, `circuitBreaker.execute(() => retryRequest(request))`.
The third component counts transport invocations; it is 0 when the breaker
rejects, since the wrapped thunk is then never run. -/
def makeRequest (bc : BreakerConfig) (s : BreakerState) (now : Int)
    (cfg : RetryConfig) (attempts : Nat → Except CaughtError α) :
    BreakerOutcome CaughtError α × BreakerState × Nat :=
  let r := retryRequest cfg attempts
  let p := execute bc s now r.1
  (p.1, p.2, match p.1 with | .rejected => 0 | _ => r.2)

/-- A run of consecutive failing whole operations dispatched through the
breaker at the given timestamps. -/
def failTimes (cfg : BreakerConfig) : List Int → BreakerState → BreakerState
  | [], s => s
  | t :: ts, s =>
      failTimes cfg ts (execute cfg s t (Except.error () : Except Unit Unit)).2

/-- Breaker states reachable from the initial state through execute. -/
inductive Reachable (cfg : BreakerConfig) : BreakerState → Prop where
  | init : Reachable cfg BreakerState.initial
  | step (s : BreakerState) (now : Int) (op : Except Unit Unit) :
      Reachable cfg s → Reachable cfg (execute cfg s now op).2

/-- RequestDeduplicator.deduplicate (api.ts lines 125-146).  `pending` maps a
deduplication key to the eventual settled outcome of the in-flight request
registered under it.  Returns the outcome delivered to the caller, whether
the operation was invoked, and the pending table once the call has settled:
a hit returns the stored outcome without invoking the operation; a miss
registers the key, invokes the operation, and deletes the entry on success
and on failure alike before the outcome propagates. -/
def deduplicate (pending : List (String × Except ε α)) (key : String)
    (op : Except ε α) : Except ε α × Bool × List (String × Except ε α) :=
  match pending.lookup key with
  | some r => (r, false, pending)
  | none =>
      let registered := (key, op) :: pending
      (op, true, registered.eraseP (fun kv => kv.1 == key))

/-- A react-query cache key under the todos namespace (queryKeys.todos() and
its descendants), rendered as a list of string segments. -/
abbrev QueryKey := List String

/-- The frontend Todo record (src/types), timestamps as ISO strings.
completedAt is optional (undefined modelled as none). -/
structure Todo where
  _id : String
  userId : String
  title : String
  description : Option String
  dueDate : String
  repeatType : String
  completed : Bool
  completedAt : Option String
  createdVia : String
  createdAt : String
  updatedAt : String
  deriving DecidableEq, Repr

/-- The slice of the query-client cache under the todos namespace: the query
keys the cache holds and the cached data of each (none models undefined
query data, e.g. a registered query that has not resolved). -/
structure TodoCache where
  keys : List QueryKey
  data : QueryKey → Option (List Todo)

/-- queryClient.setQueryData for a key taken from the cache. -/
def setQueryData (c : TodoCache) (k : QueryKey) (v : List Todo) : TodoCache :=
  { c with data := fun q => if q = k then some v else c.data q }

/-- queryClient.getQueriesData with the queryKeys.todos() prefix: every entry
under the namespace with its current data. -/
def getQueriesData (c : TodoCache) : List (QueryKey × Option (List Todo)) :=
  c.keys.map (fun k => (k, c.data k))

/-- The previousQueries snapshot built by the onMutate handlers:
(queryKey, data) pairs. -/
abbrev Snapshot := List (QueryKey × List Todo)

/-- Common shape of the onMutate handlers in useTodos.ts: iterate the entries
captured by getQueriesData, and for each entry holding an array push its
prior data onto previousQueries and write the speculative update u of the
captured data.  Entries whose data is not an array are skipped. -/
def optimisticOnMutate (u : List Todo → List Todo) (c : TodoCache) :
    TodoCache × Snapshot :=
  (getQueriesData c).foldl
    (fun acc kv =>
      match kv.2 with
      | some d => (setQueryData acc.1 kv.1 (u d), acc.2 ++ [(kv.1, d)])
      | none => acc)
    (c, [])

/-- useCreateTodo.onMutate (useTodos.ts lines 46-79): snapshot, then prepend
the placeholder `tempTodo` to every array-valued entry. -/
def createOnMutate (tempTodo : Todo) (c : TodoCache) : TodoCache × Snapshot :=
  optimisticOnMutate (fun d => tempTodo :: d) c

/-- The onError handlers of useTodos.ts (e.g. lines 99-111 for create,
252-263 for toggle): write every snapshotted (queryKey, data) pair back via
setQueryData. -/
def mutationOnError (c : TodoCache) (snap : Snapshot) : TodoCache :=
  snap.foldl (fun acc kv => setQueryData acc kv.1 kv.2) c

/-- The placeholder replacement of useCreateTodo.onSuccess (line 87):
`todo._id === context.tempId ? newTodo : todo`. -/
def replaceTemp (tempId : String) (newTodo : Todo) (td : Todo) : Todo :=
  if td._id = tempId then newTodo else td

/-- useCreateTodo.onSuccess (useTodos.ts lines 80-98): for every snapshotted
query key, map the placeholder replacement over the key's current data when
it is present. -/
def createOnSuccess (newTodo : Todo) (tempId : String) (snap : Snapshot)
    (c : TodoCache) : TodoCache :=
  snap.foldl
    (fun acc kv =>
      match acc.data kv.1 with
      | some cur => setQueryData acc kv.1 (cur.map (replaceTemp tempId newTodo))
      | none => acc)
    c

/-- The speculative field update of useToggleTodo.onMutate (useTodos.ts lines
218-229): flip completed, set completedAt to now when the todo was not
completed and clear it otherwise, stamp updatedAt.  The conditional reads the
original todo.completed (the spread is evaluated first in the source). -/
def toggleLocal (now : String) (id : String) (td : Todo) : Todo :=
  if td._id = id then
    { td with
        completed := !td.completed,
        completedAt := if !td.completed then some now else none,
        updatedAt := now }
  else td

/-- useToggleTodo.onMutate (useTodos.ts lines 207-235). -/
def toggleOnMutate (now : String) (id : String) (c : TodoCache) :
    TodoCache × Snapshot :=
  optimisticOnMutate (fun d => d.map (toggleLocal now id)) c

/-- The per-key write operations performed by optimisticOnMutate, as a list
of (key, value) pairs: the speculative value u d for every array-valued
entry, in iteration order.  With u = id this is exactly the previousQueries
snapshot. -/
def specOps (u : List Todo → List Todo)
    (qs : List (QueryKey × Option (List Todo))) : Snapshot :=
  qs.filterMap (fun kv => kv.2.map (fun d => (kv.1, u d)))

/-- Temporary id generated by useCreateTodo.onMutate (useTodos.ts line 48):
the template literal "temp_" + Date.now(). -/
def mkTempId (now : Nat) : String := "temp_" ++ toString now

/-- A create-mutation invocation: which invocation it is, and the Date.now()
millisecond value its onMutate observed. -/
structure CreateInvocation where
  invocationId : Nat
  now : Nat
  deriving DecidableEq, Repr

/-- The temporary id of an invocation is derived solely from its observed
timestamp. -/
def tempIdOf (inv : CreateInvocation) : String := mkTempId inv.now

/-- Sample fixtures used by witness theorems. -/
def sampleTodo : Todo :=
  { _id := "abc123", userId := "u1", title := "Buy milk", description := none,
    dueDate := "2026-10-12", repeatType := "none", completed := false,
    completedAt := none, createdVia := "text", createdAt := "2026-10-11",
    updatedAt := "2026-10-11" }

def sampleTempTodo : Todo :=
  { _id := "temp_1000", userId := "temp", title := "Buy milk", description := none,
    dueDate := "2026-10-12", repeatType := "none", completed := false,
    completedAt := none, createdVia := "text", createdAt := "2026-10-12",
    updatedAt := "2026-10-12" }

def sampleKey : QueryKey := ["todos", "list"]

def sampleCache : TodoCache :=
  { keys := [sampleKey],
    data := fun q => if q = sampleKey then some [sampleTodo] else none }

/-- Attempt outcomes that fail twice with a classified network error and then
succeed (used to witness the breaker evaluating a whole retried operation). -/
def sampleFlakyAttempts : Nat → Except CaughtError Unit := fun n =>
  if n < 2 then
    Except.error (.classified (.networkError "Network error - please check your connection"))
  else Except.ok ()

/-- Attempt outcomes that always fail with a classified network error. -/
def sampleFailAttempts : Nat → Except CaughtError Unit := fun _ =>
  Except.error (.classified (.networkError "Network error - please check your connection"))

/-- A closed breaker state with two recorded failures. -/
def sampleClosedState : BreakerState :=
  { failureCount := 2, lastFailureTime := 0, mode := .closed }

/-- A raw axios failure carrying an HTTP 404 response. -/
def sample404Axios : AxiosErrorShape :=
  { code := none, message := "Request failed",
    response := some { status := 404, dataMessage := none, dataCode := none } }

/-- A raw axios failure with no response received. -/
def sampleNetAxios : AxiosErrorShape :=
  { code := none, message := "Network Error", response := none }

/-- The per-entry overwrite at a fixed query key: the value a setQueryData
fold leaves at key q after processing one snapshot entry. -/
def writeAt (q : QueryKey) (v : Option (List Todo)) (kv : QueryKey × List Todo) :
    Option (List Todo) :=
  if kv.1 = q then some kv.2 else v

/-- sampleTodo after the speculative toggle at time "T10". -/
def sampleToggledTodo : Todo :=
  { sampleTodo with completed := true, completedAt := some "T10", updatedAt := "T10" }

/-! ## Theorems -/

/-- C1 (code bug).  The spec says a 4xx ApiError is never retried, and the
comment on defaultRetryConfig.retryCondition says "Retry on network errors or
5xx server errors"; but the response interceptor rejects with the classified
error produced by transformError, which is not an instance of AxiosError, so
the `error instanceof AxiosError` guard in retryRequest never fires for
instance-routed requests and every failure is retried to exhaustion.  A
request failing with HTTP 404 is classified as an ApiError with status 404
(first conjunct) and is then attempted 4 times under the default config
(second conjunct); the retry condition only takes effect for a raw
AxiosError, for which a 404 is indeed not retried (third conjunct). -/
theorem retry_404_is_retried :
    transformError sample404Axios = .apiError "Request failed" (some 404) none
    ∧ (retryRequest defaultRetryConfig
        (fun _ => Except.error (.classified (.apiError "Request failed" (some 404) none)) :
          Nat → Except CaughtError Unit)).2 = 4
    ∧ (retryRequest defaultRetryConfig
        (fun _ => Except.error (.axios sample404Axios) :
          Nat → Except CaughtError Unit)).2 = 1 :=
  ⟨by decide, by decide, by decide⟩

/-- C4 (code bug).  login and register are dispatched with
`{ ...defaultRetryConfig, maxRetries: 1 }` under comments saying the request
must not be retried; but the loop runs attempts 0 .. maxRetries, so
maxRetries = 1 permits one retry and a failing login or registration issues
two transport invocations, not one.  This holds both for a classified
network failure (which bypasses the retry condition) and for a raw axios
network failure (which the default condition approves for retry). -/
theorem login_register_second_attempt :
    loginRetryConfig.maxRetries = 1 ∧ registerRetryConfig.maxRetries = 1
    ∧ (retryRequest loginRetryConfig sampleFailAttempts).2 = 2
    ∧ (retryRequest registerRetryConfig
        (fun _ => Except.error (.axios sampleNetAxios) :
          Nat → Except CaughtError Unit)).2 = 2 :=
  ⟨rfl, rfl, by decide, by decide⟩

/-- C7.  RequestDeduplicator.deduplicate: a key with a pending entry returns
that entry's eventual outcome without invoking the operation and leaves the
table unchanged; a fresh key invokes the operation exactly once and the entry
is removed unconditionally before the outcome propagates (the settled table
holds no entry for the key). -/
theorem dedup_hit_shares_miss_registers (ε α : Type)
    (pending : List (String × Except ε α)) (key : String) (op : Except ε α) :
    (∀ r, pending.lookup key = some r →
        deduplicate pending key op = (r, false, pending))
    ∧ (pending.lookup key = none →
        deduplicate pending key op = (op, true, pending)
        ∧ (deduplicate pending key op).2.2.lookup key = none) := by
  have he : ((key, op) :: pending).eraseP (fun kv => kv.1 == key) = pending := by
    rw [List.eraseP_cons_of_pos]
    simp
  constructor
  · intro r h
    simp [deduplicate, h]
  · intro h
    refine ⟨by simp [deduplicate, h, he], ?_⟩
    simp [deduplicate, h, he]

/-- Witness for C7: a hit on key "k" returns the stored outcome without
invoking the operation; a miss invokes it and ends with an empty table. -/
theorem dedup_witness :
    deduplicate [("k", Except.ok 5)] "k" (Except.error "boom" : Except String Nat)
      = (Except.ok 5, false, [("k", Except.ok 5)])
    ∧ deduplicate ([] : List (String × Except String Nat)) "k" (Except.ok 7)
      = (Except.ok 7, true, []) :=
  ⟨(dedup_hit_shares_miss_registers String Nat [("k", Except.ok 5)] "k"
      (Except.error "boom")).1 _ rfl,
   ((dedup_hit_shares_miss_registers String Nat [] "k" (Except.ok 7)).2 rfl).1⟩

/-- Helper: from a closed breaker a failing call runs onFailure. -/
theorem execute_closed_error (cfg : BreakerConfig) (s : BreakerState) (now : Int)
    (e : ε) (h : s.mode = .closed) :
    execute cfg s now (Except.error e : Except ε α) = (.failed e, onFailure cfg s now) := by
  simp [execute, h]

/-- Helper: a run of failures that stays strictly below the threshold keeps
the breaker closed and counts every failure. -/
theorem failTimes_closed (cfg : BreakerConfig) (ts : List Int) :
    ∀ s : BreakerState, s.mode = .closed →
      s.failureCount + ts.length < cfg.maxFailures →
      (failTimes cfg ts s).mode = .closed ∧
      (failTimes cfg ts s).failureCount = s.failureCount + ts.length := by
  induction ts with
  | nil =>
    intro s hm _
    simp [failTimes, hm]
  | cons t ts ih =>
    intro s hm hlt
    simp only [List.length_cons] at hlt
    rw [failTimes, execute_closed_error cfg s t () hm]
    have hmode : (onFailure cfg s t).mode = .closed := by
      simp only [onFailure]
      rw [if_neg (by omega)]
      exact hm
    have hcnt : (onFailure cfg s t).failureCount = s.failureCount + 1 := rfl
    have hres := ih (onFailure cfg s t) hmode (by rw [hcnt]; omega)
    rw [hcnt] at hres
    refine ⟨hres.1, ?_⟩
    rw [hres.2]
    simp only [List.length_cons]
    omega

/-- Helper: a run of failures whose last failure reaches the threshold ends
with the breaker open. -/
theorem failTimes_opens (cfg : BreakerConfig) (ts : List Int) :
    ∀ s : BreakerState, s.mode = .closed → ts ≠ [] →
      s.failureCount + ts.length = cfg.maxFailures →
      (failTimes cfg ts s).mode = .opened := by
  induction ts with
  | nil =>
    intro s _ hne _
    exact absurd rfl hne
  | cons t ts ih =>
    intro s hm _ hlen
    simp only [List.length_cons] at hlen
    rw [failTimes, execute_closed_error cfg s t () hm]
    cases ts with
    | nil =>
      simp only [List.length_nil] at hlen
      simp only [failTimes, onFailure]
      rw [if_pos (by omega)]
    | cons t2 ts2 =>
      simp only [List.length_cons] at hlen
      refine ih (onFailure cfg s t) ?_ (by simp) ?_
      · simp only [onFailure]
        rw [if_neg (by omega)]
        exact hm
      · simp only [onFailure, List.length_cons]
        omega

/-- C3.  From the initial state, any run of consecutive failures shorter than
the failure threshold leaves the breaker Closed (with the exact failure
count); a run whose length reaches the threshold leaves it Open; and while
Open, any call arriving before resetTimeout has elapsed since lastFailureTime
is rejected with the state unchanged — the outcome is `rejected`, i.e. the
transport operation is not invoked, whatever its outcome `op` would be. -/
theorem breaker_threshold_and_short_circuit (cfg : BreakerConfig)
    (ts : List Int) (s : BreakerState) (now : Int) (op : Except Unit Unit) :
    (ts.length < cfg.maxFailures →
      (failTimes cfg ts BreakerState.initial).mode = .closed ∧
      (failTimes cfg ts BreakerState.initial).failureCount = ts.length)
    ∧ (ts ≠ [] → ts.length = cfg.maxFailures →
      (failTimes cfg ts BreakerState.initial).mode = .opened)
    ∧ (s.mode = .opened → now - s.lastFailureTime < cfg.resetTimeout →
      execute cfg s now op = (.rejected, s)) := by
  refine ⟨fun h => ?_, fun hne h => ?_, fun hm ht => ?_⟩
  · have hres := failTimes_closed cfg ts BreakerState.initial rfl
      (by simpa [BreakerState.initial] using h)
    simpa [BreakerState.initial] using hres
  · exact failTimes_opens cfg ts BreakerState.initial rfl hne
      (by simpa [BreakerState.initial] using h)
  · simp [execute, hm, ht]

/-- Witness for C3 at the default config: 4 failures keep the breaker closed,
the 5th opens it, and a 6th call 59999 ms after the last failure is rejected
with the state unchanged. -/
theorem breaker_threshold_witness :
    ((failTimes defaultBreakerConfig [0, 0, 0, 0] BreakerState.initial).mode = .closed
      ∧ (failTimes defaultBreakerConfig [0, 0, 0, 0] BreakerState.initial).failureCount = 4)
    ∧ (failTimes defaultBreakerConfig [0, 0, 0, 0, 0] BreakerState.initial).mode = .opened
    ∧ execute defaultBreakerConfig
        (failTimes defaultBreakerConfig [0, 0, 0, 0, 0] BreakerState.initial) 59999
        (Except.error () : Except Unit Unit)
      = (.rejected, failTimes defaultBreakerConfig [0, 0, 0, 0, 0] BreakerState.initial) :=
  ⟨(breaker_threshold_and_short_circuit defaultBreakerConfig [0, 0, 0, 0]
      BreakerState.initial 0 (Except.error ())).1 (by decide),
   (breaker_threshold_and_short_circuit defaultBreakerConfig [0, 0, 0, 0, 0]
      BreakerState.initial 0 (Except.error ())).2.1 (by decide) (by decide),
   (breaker_threshold_and_short_circuit defaultBreakerConfig []
      (failTimes defaultBreakerConfig [0, 0, 0, 0, 0] BreakerState.initial) 59999
      (Except.error ())).2.2 (by decide) (by decide)⟩

/-- Helper: in every reachable state, a non-closed mode implies the failure
count has reached the threshold.  The count is reset only by onSuccess, which
also closes the breaker, while onFailure only increments it. -/
theorem reachable_failures_at_threshold (cfg : BreakerConfig) (s : BreakerState)
    (h : Reachable cfg s) : s.mode ≠ .closed → cfg.maxFailures ≤ s.failureCount := by
  induction h with
  | init => intro hm; exact absurd rfl hm
  | step s now op hr ih =>
    by_cases hg : s.mode = .opened ∧ now - s.lastFailureTime < cfg.resetTimeout
    · simpa [execute, hg] using ih
    · cases op with
      | ok a =>
        intro hm
        simp [execute, hg, onSuccess] at hm
      | error e =>
        intro hm
        by_cases ho : s.mode = .opened
        · have hs := ih (by rw [ho]; intro hc; cases hc)
          have hlt : ¬ now - s.lastFailureTime < cfg.resetTimeout := fun hl => hg ⟨ho, hl⟩
          simp [execute, hg, ho, hlt, onFailure]
          omega
        · simp only [execute, if_neg hg, if_neg ho, onFailure] at hm ⊢
          by_cases hth : cfg.maxFailures ≤ s.failureCount + 1
          · omega
          · rw [if_neg hth] at hm
            have hs := ih hm
            omega

/-- C5.  When the breaker is Open in a reachable state and resetTimeout has
elapsed since lastFailureTime, the next call is let through (it transitions
to HalfOpen and invokes the operation): if the probed call fails the breaker
is Open again with lastFailureTime refreshed to the failure time and the
count incremented, and if it succeeds the breaker is Closed with
consecutiveFailures reset to 0.  Either way the post-state is never HalfOpen,
so exactly one call observes the half-open window. -/
theorem halfOpen_probe_settles (cfg : BreakerConfig) (s : BreakerState) (now : Int)
    (hr : Reachable cfg s) (hm : s.mode = .opened)
    (ht : cfg.resetTimeout ≤ now - s.lastFailureTime) :
    (∀ e : Unit, execute cfg s now (Except.error e : Except Unit Unit)
       = (.failed e, ⟨s.failureCount + 1, now, .opened⟩))
    ∧ (∀ a : Unit, execute cfg s now (Except.ok a : Except Unit Unit)
       = (.succeeded a, ⟨0, s.lastFailureTime, .closed⟩)) := by
  have hth : cfg.maxFailures ≤ s.failureCount :=
    reachable_failures_at_threshold cfg s hr (by rw [hm]; intro hc; cases hc)
  have hg : ¬ (s.mode = .opened ∧ now - s.lastFailureTime < cfg.resetTimeout) := by
    intro hc
    omega
  constructor
  · intro e
    have h1 : cfg.maxFailures ≤ s.failureCount + 1 := by omega
    simp [execute, hg, hm, onFailure, h1]
    omega
  · intro a
    simp [execute, hg, hm, onSuccess]
    omega

/-- Witness for C5: after five failures at time 0 the breaker is Open and
reachable; at time 60000 the probe is let through, a failure re-opens with
the refreshed failure time, a success closes and resets the count. -/
theorem halfOpen_probe_witness :
    execute defaultBreakerConfig
        (failTimes defaultBreakerConfig [0, 0, 0, 0, 0] BreakerState.initial) 60000
        (Except.error () : Except Unit Unit)
      = (.failed (), ⟨6, 60000, .opened⟩)
    ∧ execute defaultBreakerConfig
        (failTimes defaultBreakerConfig [0, 0, 0, 0, 0] BreakerState.initial) 60000
        (Except.ok () : Except Unit Unit)
      = (.succeeded (), ⟨0, 0, .closed⟩) := by
  have h5 : Reachable defaultBreakerConfig
      (failTimes defaultBreakerConfig [0, 0, 0, 0, 0] BreakerState.initial) :=
    Reachable.step _ 0 (Except.error ()) (Reachable.step _ 0 (Except.error ())
      (Reachable.step _ 0 (Except.error ()) (Reachable.step _ 0 (Except.error ())
        (Reachable.step _ 0 (Except.error ()) Reachable.init))))
  have hmain := halfOpen_probe_settles defaultBreakerConfig
    (failTimes defaultBreakerConfig [0, 0, 0, 0, 0] BreakerState.initial) 60000
    h5 (by decide) (by decide)
  exact ⟨hmain.1 (), hmain.2 ()⟩

/-- C6.  ApiService.makeRequest wraps the whole retry loop in the breaker:
whatever the number of individual attempts, a dispatched operation that is
not rejected records exactly one outcome — if the retried operation
ultimately succeeds the failure count is reset to 0 and the breaker is
Closed, and if it exhausts its retries the failure count grows by exactly
one. -/
theorem breaker_evaluates_whole_operation (bc : BreakerConfig) (s : BreakerState)
    (now : Int) (cfg : RetryConfig) (attempts : Nat → Except CaughtError Unit)
    (hnr : ¬ (s.mode = .opened ∧ now - s.lastFailureTime < bc.resetTimeout)) :
    (∀ v, (retryRequest cfg attempts).1 = .ok v →
      (makeRequest bc s now cfg attempts).2.1.failureCount = 0 ∧
      (makeRequest bc s now cfg attempts).2.1.mode = .closed)
    ∧ (∀ e, (retryRequest cfg attempts).1 = .error e →
      (makeRequest bc s now cfg attempts).2.1.failureCount = s.failureCount + 1) := by
  constructor
  · intro v hv
    by_cases ho : s.mode = .opened
    · have hlt : ¬ now - s.lastFailureTime < bc.resetTimeout := fun hl => hnr ⟨ho, hl⟩
      simp [makeRequest, execute, hv, ho, hlt, onSuccess]
    · simp [makeRequest, execute, hv, ho, onSuccess]
  · intro e he
    by_cases ho : s.mode = .opened
    · have hlt : ¬ now - s.lastFailureTime < bc.resetTimeout := fun hl => hnr ⟨ho, hl⟩
      simp [makeRequest, execute, he, ho, hlt, onFailure]
    · simp [makeRequest, execute, he, ho, onFailure]

/-- Witness for C6 at the default configs from a closed state with two prior
failures: an operation that fails twice and then succeeds makes 3 transport
attempts yet resets the count to 0; an operation that exhausts its retries
increments the count by exactly one (2 to 3) despite 4 attempts. -/
theorem breaker_whole_operation_witness :
    (makeRequest defaultBreakerConfig sampleClosedState 0 defaultRetryConfig
        sampleFlakyAttempts).2.1.failureCount = 0
    ∧ (makeRequest defaultBreakerConfig sampleClosedState 0 defaultRetryConfig
        sampleFlakyAttempts).2.2 = 3
    ∧ (makeRequest defaultBreakerConfig sampleClosedState 0 defaultRetryConfig
        sampleFailAttempts).2.1.failureCount = 3
    ∧ (makeRequest defaultBreakerConfig sampleClosedState 0 defaultRetryConfig
        sampleFailAttempts).2.2 = 4 := by
  refine ⟨?_, by decide, ?_, by decide⟩
  · exact ((breaker_evaluates_whole_operation defaultBreakerConfig sampleClosedState 0
      defaultRetryConfig sampleFlakyAttempts (by decide)).1 () rfl).1
  · exact (breaker_evaluates_whole_operation defaultBreakerConfig sampleClosedState 0
      defaultRetryConfig sampleFailAttempts (by decide)).2
      (.classified (.networkError "Network error - please check your connection"))
      rfl

/-- Helper: setQueryData keeps the key list. -/
theorem setQueryData_keys (c : TodoCache) (k : QueryKey) (v : List Todo) :
    (setQueryData c k v).keys = c.keys := rfl

/-- Helper: the data written by setQueryData, pointwise. -/
theorem setQueryData_data (c : TodoCache) (k : QueryKey) (v : List Todo) (q : QueryKey) :
    (setQueryData c k v).data q = if q = k then some v else c.data q := rfl

/-- Helper: one step of the snapshot-restoring fold. -/
theorem mutationOnError_cons (c : TodoCache) (kv : QueryKey × List Todo) (snap : Snapshot) :
    mutationOnError c (kv :: snap) = mutationOnError (setQueryData c kv.1 kv.2) snap := rfl

/-- Helper: restoring a snapshot keeps the key list. -/
theorem mutationOnError_keys (snap : Snapshot) :
    ∀ c : TodoCache, (mutationOnError c snap).keys = c.keys := by
  induction snap with
  | nil => intro c; rfl
  | cons kv snap ih =>
    intro c
    rw [mutationOnError_cons, ih, setQueryData_keys]

/-- Helper: the data that a fold of setQueryData writes leaves at a query q
is the fold of the per-entry overwrite writeAt q. -/
theorem mutationOnError_data (snap : Snapshot) :
    ∀ (c : TodoCache) (q : QueryKey),
      (mutationOnError c snap).data q = snap.foldl (writeAt q) (c.data q) := by
  induction snap with
  | nil => intro c q; rfl
  | cons kv snap ih =>
    intro c q
    rw [mutationOnError_cons, ih, List.foldl_cons]
    congr 1
    rw [setQueryData_data]
    simp only [writeAt]
    by_cases h : q = kv.1
    · rw [if_pos h, if_pos h.symm]
    · rw [if_neg h, if_neg (fun hh => h hh.symm)]

/-- Helper: a writeAt fold over entries none of which hits q is the identity. -/
theorem foldl_writeAt_of_no_match (q : QueryKey) (ops : Snapshot) :
    ∀ v, (∀ p ∈ ops, ¬ p.1 = q) → ops.foldl (writeAt q) v = v := by
  induction ops with
  | nil => intro v _; rfl
  | cons p ops ih =>
    intro v h
    rw [List.foldl_cons]
    have hp : ¬ p.1 = q := h p (List.mem_cons_self p ops)
    have hstep : writeAt q v p = v := by
      simp only [writeAt]
      rw [if_neg hp]
    rw [hstep]
    exact ih v (fun r hr => h r (List.mem_cons_of_mem p hr))

/-- Helper: a writeAt fold over entries whose q-hits all carry the value d
returns some d as soon as one entry hits q, and the initial value otherwise. -/
theorem foldl_writeAt_of_match (q : QueryKey) (d : List Todo) (ops : Snapshot) :
    ∀ v, (∀ p ∈ ops, p.1 = q → p.2 = d) →
      ops.foldl (writeAt q) v =
        if ops.any (fun p => decide (p.1 = q)) then some d else v := by
  induction ops with
  | nil => intro v _; rfl
  | cons p ops ih =>
    intro v h
    rw [List.foldl_cons, ih (writeAt q v p) (fun r hr hq => h r (List.mem_cons_of_mem p hr) hq)]
    by_cases hp : p.1 = q
    · have hd : p.2 = d := h p (List.mem_cons_self p ops) hp
      have hstep : writeAt q v p = some d := by
        simp only [writeAt]
        rw [if_pos hp, hd]
      rw [hstep]
      simp [List.any_cons, hp]
    · have hstep : writeAt q v p = v := by
        simp only [writeAt]
        rw [if_neg hp]
      rw [hstep]
      have hdp : decide (p.1 = q) = false := decide_eq_false hp
      rw [List.any_cons, hdp, Bool.false_or]

/-- Helper: every specOps entry comes from an array-valued cache entry and
carries the updated copy of its prior data. -/
theorem specOps_mem (u : List Todo → List Todo) (c : TodoCache)
    (q : QueryKey) (p : QueryKey × List Todo)
    (hp : p ∈ specOps u (getQueriesData c)) (hq : p.1 = q) :
    ∃ d, c.data q = some d ∧ p.2 = u d := by
  simp only [specOps, getQueriesData, List.mem_filterMap, List.mem_map] at hp
  obtain ⟨kv, ⟨k, hk, hkv⟩, hmap⟩ := hp
  subst hkv
  cases hd : c.data k with
  | none => rw [hd] at hmap; cases hmap
  | some d =>
    rw [hd] at hmap
    simp only [Option.map_some'] at hmap
    injection hmap with hpe
    subst hpe
    simp only at hq
    subst hq
    exact ⟨d, hd, rfl⟩

/-- Helper: every specOps entry key is a cache key. -/
theorem specOps_key_mem (u : List Todo → List Todo) (c : TodoCache)
    (p : QueryKey × List Todo) (hp : p ∈ specOps u (getQueriesData c)) :
    p.1 ∈ c.keys := by
  simp only [specOps, getQueriesData, List.mem_filterMap, List.mem_map] at hp
  obtain ⟨kv, ⟨k, hk, hkv⟩, hmap⟩ := hp
  subst hkv
  cases hd : c.data k with
  | none => rw [hd] at hmap; cases hmap
  | some d =>
    rw [hd] at hmap
    simp only [Option.map_some'] at hmap
    injection hmap with hpe
    subst hpe
    exact hk

/-- Helper: a cache key holding data yields a specOps entry hitting it. -/
theorem specOps_any_of_mem (u : List Todo → List Todo) (c : TodoCache)
    (q : QueryKey) (d : List Todo) (hq : q ∈ c.keys) (hd : c.data q = some d) :
    (specOps u (getQueriesData c)).any (fun p => decide (p.1 = q)) = true := by
  rw [List.any_eq_true]
  refine ⟨(q, u d), ?_, by simp⟩
  simp only [specOps, getQueriesData, List.mem_filterMap, List.mem_map]
  exact ⟨(q, c.data q), ⟨q, hq, rfl⟩, by rw [hd]; rfl⟩

/-- Helper: the onMutate fold decouples into the speculative writes (a
mutationOnError fold of specOps u) and the snapshot (specOps of the
identity), since every written value is computed from the captured entries,
not from the evolving cache. -/
theorem optimisticOnMutate_foldl (u : List Todo → List Todo)
    (qs : List (QueryKey × Option (List Todo))) :
    ∀ (acc : TodoCache) (s0 : Snapshot),
      qs.foldl
        (fun acc kv =>
          match kv.2 with
          | some d => (setQueryData acc.1 kv.1 (u d), acc.2 ++ [(kv.1, d)])
          | none => acc)
        (acc, s0)
      = (mutationOnError acc (specOps u qs), s0 ++ specOps (fun d => d) qs) := by
  induction qs with
  | nil =>
    intro acc s0
    simp [specOps, mutationOnError]
  | cons kv qs ih =>
    intro acc s0
    rw [List.foldl_cons]
    cases hkv : kv.2 with
    | none =>
      simp only [hkv]
      rw [ih acc s0]
      simp [specOps, List.filterMap_cons, hkv]
    | some d =>
      simp only [hkv]
      rw [ih (setQueryData acc kv.1 (u d)) (s0 ++ [(kv.1, d)])]
      simp only [specOps, List.filterMap_cons, hkv, Option.map_some']
      rw [mutationOnError_cons]
      simp [List.append_assoc]

/-- Helper: closed form of the onMutate handlers. -/
theorem optimisticOnMutate_eq (u : List Todo → List Todo) (c : TodoCache) :
    optimisticOnMutate u c
      = (mutationOnError c (specOps u (getQueriesData c)),
        specOps (fun d => d) (getQueriesData c)) := by
  rw [optimisticOnMutate, optimisticOnMutate_foldl]
  simp

/-- Helper: replaying the previousQueries snapshot after any speculative
onMutate update restores every cache entry to its prior value. -/
theorem rollback_restores (u : List Todo → List Todo) (c : TodoCache) (q : QueryKey) :
    (mutationOnError (optimisticOnMutate u c).1 (optimisticOnMutate u c).2).data q
      = c.data q := by
  rw [optimisticOnMutate_eq]
  rw [mutationOnError_data, mutationOnError_data]
  by_cases hq : q ∈ c.keys
  · cases hd : c.data q with
    | none =>
      have h1 : ∀ p ∈ specOps u (getQueriesData c), ¬ p.1 = q := by
        intro p hp hpq
        obtain ⟨d0, hd0, _⟩ := specOps_mem u c q p hp hpq
        rw [hd] at hd0
        cases hd0
      have h2 : ∀ p ∈ specOps (fun d => d) (getQueriesData c), ¬ p.1 = q := by
        intro p hp hpq
        obtain ⟨d0, hd0, _⟩ := specOps_mem (fun d => d) c q p hp hpq
        rw [hd] at hd0
        cases hd0
      rw [foldl_writeAt_of_no_match q _ _ h1, foldl_writeAt_of_no_match q _ _ h2]
    | some d =>
      have hall : ∀ p ∈ specOps (fun d => d) (getQueriesData c), p.1 = q → p.2 = d := by
        intro p hp hpq
        obtain ⟨d0, hd0, hp2⟩ := specOps_mem (fun d => d) c q p hp hpq
        rw [hd] at hd0
        injection hd0 with hdd
        rw [hp2]
        exact hdd.symm
      rw [foldl_writeAt_of_match q d _ _ hall,
        specOps_any_of_mem (fun d => d) c q d hq hd]
      simp [hd]
  · have h1 : ∀ p ∈ specOps u (getQueriesData c), ¬ p.1 = q := by
      intro p hp hpq
      exact hq (hpq ▸ specOps_key_mem u c p hp)
    have h2 : ∀ p ∈ specOps (fun d => d) (getQueriesData c), ¬ p.1 = q := by
      intro p hp hpq
      exact hq (hpq ▸ specOps_key_mem (fun d => d) c p hp)
    rw [foldl_writeAt_of_no_match q _ _ h1, foldl_writeAt_of_no_match q _ _ h2]

/-- C2.  useCreateTodo: onMutate snapshots every array-valued entry under the
todos namespace with its prior data (first conjunct: previousQueries is
exactly the prior data of those entries, captured before mutation), prepends
the placeholder to each such entry (second conjunct), and after the
underlying call fails, the onError replay leaves every cache entry — keys and
data of every query, including entries that were never touched — deep-equal
to its value before the speculative mutation (third and fourth conjuncts). -/
theorem create_failure_rolls_back (t : Todo) (c : TodoCache) :
    (createOnMutate t c).2 = specOps (fun d => d) (getQueriesData c)
    ∧ (∀ q d, q ∈ c.keys → c.data q = some d →
        (createOnMutate t c).1.data q = some (t :: d))
    ∧ (mutationOnError (createOnMutate t c).1 (createOnMutate t c).2).keys = c.keys
    ∧ (∀ q, (mutationOnError (createOnMutate t c).1 (createOnMutate t c).2).data q
        = c.data q) := by
  refine ⟨?_, ?_, ?_, fun q => rollback_restores (fun d => t :: d) c q⟩
  · rw [createOnMutate, optimisticOnMutate_eq]
  · intro q d hq hd
    rw [createOnMutate, optimisticOnMutate_eq]
    rw [mutationOnError_data]
    have hall : ∀ p ∈ specOps (fun l => t :: l) (getQueriesData c),
        p.1 = q → p.2 = t :: d := by
      intro p hp hpq
      obtain ⟨d0, hd0, hp2⟩ := specOps_mem (fun l => t :: l) c q p hp hpq
      rw [hd] at hd0
      injection hd0 with hdd
      rw [hp2, hdd]
    rw [foldl_writeAt_of_match q (t :: d) _ _ hall,
      specOps_any_of_mem (fun l => t :: l) c q d hq hd]
    simp
  · rw [mutationOnError_keys, createOnMutate, optimisticOnMutate_eq]
    exact mutationOnError_keys _ _

/-- Witness for C2 on a one-entry cache: the placeholder is prepended and the
rollback restores the entry to its exact prior value. -/
theorem create_rollback_witness :
    (sampleKey ∈ sampleCache.keys ∧ sampleCache.data sampleKey = some [sampleTodo])
    ∧ (createOnMutate sampleTempTodo sampleCache).1.data sampleKey
        = some [sampleTempTodo, sampleTodo]
    ∧ (mutationOnError (createOnMutate sampleTempTodo sampleCache).1
        (createOnMutate sampleTempTodo sampleCache).2).data sampleKey
        = some [sampleTodo] := by
  refine ⟨⟨by decide, by decide⟩, ?_, ?_⟩
  · exact (create_failure_rolls_back sampleTempTodo sampleCache).2.1 sampleKey [sampleTodo]
      (by decide) (by decide)
  · rw [(create_failure_rolls_back sampleTempTodo sampleCache).2.2.2 sampleKey]
    decide

/-- C8.  useToggleTodo: the speculative update on the targeted todo sets
completed := true and completedAt := now when it was not completed, and
completed := false with completedAt cleared when it was (first two
conjuncts); on server failure the onError replay restores every cache entry,
hence completed and completedAt, to their exact prior values (last two
conjuncts). -/
theorem toggle_speculative_and_rollback (now id : String) (td : Todo) (c : TodoCache)
    (hid : td._id = id) :
    (td.completed = false →
      toggleLocal now id td
        = { td with completed := true, completedAt := some now, updatedAt := now })
    ∧ (td.completed = true →
      toggleLocal now id td
        = { td with completed := false, completedAt := none, updatedAt := now })
    ∧ (mutationOnError (toggleOnMutate now id c).1 (toggleOnMutate now id c).2).keys = c.keys
    ∧ (∀ q, (mutationOnError (toggleOnMutate now id c).1 (toggleOnMutate now id c).2).data q
        = c.data q) := by
  refine ⟨?_, ?_, ?_, fun q => rollback_restores (fun d => d.map (toggleLocal now id)) c q⟩
  · intro hc
    simp [toggleLocal, hid, hc]
  · intro hc
    simp [toggleLocal, hid, hc]
  · rw [mutationOnError_keys, toggleOnMutate, optimisticOnMutate_eq]
    exact mutationOnError_keys _ _

/-- Witness for C8: toggling the not-completed sample todo sets
completed/completedAt speculatively, and the rollback restores the cache
entry holding it. -/
theorem toggle_witness :
    sampleTodo._id = "abc123" ∧ sampleTodo.completed = false
    ∧ toggleLocal "T10" "abc123" sampleTodo = sampleToggledTodo
    ∧ (mutationOnError (toggleOnMutate "T10" "abc123" sampleCache).1
        (toggleOnMutate "T10" "abc123" sampleCache).2).data sampleKey
      = some [sampleTodo] := by
  refine ⟨rfl, rfl, ?_, ?_⟩
  · exact (toggle_speculative_and_rollback "T10" "abc123" sampleTodo sampleCache rfl).1 rfl
  · rw [(toggle_speculative_and_rollback "T10" "abc123" sampleTodo sampleCache
      rfl).2.2.2 sampleKey]
    decide

/-- Helper: the placeholder replacement is idempotent on a todo. -/
theorem replaceTemp_idem (tempId : String) (newTodo td : Todo) :
    replaceTemp tempId newTodo (replaceTemp tempId newTodo td)
      = replaceTemp tempId newTodo td := by
  by_cases h : td._id = tempId
  · simp only [replaceTemp, if_pos h, ite_self]
  · simp only [replaceTemp, if_neg h]

/-- Helper: mapping the placeholder replacement twice equals mapping once. -/
theorem map_replaceTemp_idem (tempId : String) (newTodo : Todo) (l : List Todo) :
    (l.map (replaceTemp tempId newTodo)).map (replaceTemp tempId newTodo)
      = l.map (replaceTemp tempId newTodo) := by
  induction l with
  | nil => rfl
  | cons td l ih => simp [replaceTemp_idem, ih]

/-- Helper: the optional-data form of the previous lemma. -/
theorem omap_replaceTemp_idem (tempId : String) (newTodo : Todo)
    (v : Option (List Todo)) :
    Option.map (List.map (replaceTemp tempId newTodo))
        (Option.map (List.map (replaceTemp tempId newTodo)) v)
      = Option.map (List.map (replaceTemp tempId newTodo)) v := by
  cases v with
  | none => rfl
  | some l =>
    simp only [Option.map_some']
    rw [map_replaceTemp_idem]

/-- Helper: one step of the onSuccess reconciliation fold. -/
theorem createOnSuccess_cons (newTodo : Todo) (tempId : String)
    (kv : QueryKey × List Todo) (snap : Snapshot) (c : TodoCache) :
    createOnSuccess newTodo tempId (kv :: snap) c
      = createOnSuccess newTodo tempId snap
          (match c.data kv.1 with
           | some cur => setQueryData c kv.1 (cur.map (replaceTemp tempId newTodo))
           | none => c) := rfl

/-- Helper: a reconciliation step acts pointwise on the data of its own key
and leaves every other key untouched. -/
theorem createOnSuccess_step_data (newTodo : Todo) (tempId : String)
    (kv : QueryKey × List Todo) (c : TodoCache) (q : QueryKey) :
    (match c.data kv.1 with
     | some cur => setQueryData c kv.1 (cur.map (replaceTemp tempId newTodo))
     | none => c).data q
      = if q = kv.1 then
          Option.map (List.map (replaceTemp tempId newTodo)) (c.data q)
        else c.data q := by
  cases hd : c.data kv.1 with
  | none =>
    by_cases h : q = kv.1
    · rw [if_pos h, h, hd]
      rfl
    · rw [if_neg h]
  | some cur =>
    by_cases h : q = kv.1
    · rw [setQueryData_data, if_pos h, if_pos h, h, hd]
      rfl
    · rw [setQueryData_data, if_neg h, if_neg h]

/-- Helper: a reconciliation step keeps the key list. -/
theorem createOnSuccess_keys (newTodo : Todo) (tempId : String) (snap : Snapshot) :
    ∀ c : TodoCache, (createOnSuccess newTodo tempId snap c).keys = c.keys := by
  induction snap with
  | nil => intro c; rfl
  | cons kv snap ih =>
    intro c
    rw [createOnSuccess_cons, ih]
    cases hd : c.data kv.1 <;> rfl

/-- Helper: closed pointwise form of the onSuccess reconciliation — a key hit
by the snapshot gets the replacement mapped over its current data, other keys
are untouched. -/
theorem createOnSuccess_data (newTodo : Todo) (tempId : String) (snap : Snapshot) :
    ∀ (c : TodoCache) (q : QueryKey),
      (createOnSuccess newTodo tempId snap c).data q
        = if snap.any (fun kv => decide (kv.1 = q)) then
            Option.map (List.map (replaceTemp tempId newTodo)) (c.data q)
          else c.data q := by
  induction snap with
  | nil => intro c q; rfl
  | cons kv snap ih =>
    intro c q
    rw [createOnSuccess_cons, ih, createOnSuccess_step_data]
    by_cases h : kv.1 = q
    · subst h
      rw [if_pos rfl, List.any_cons, decide_eq_true rfl, Bool.true_or]
      by_cases hs : snap.any (fun kv2 => decide (kv2.1 = kv.1)) = true
      · rw [if_pos hs, if_pos rfl, omap_replaceTemp_idem]
      · rw [if_neg hs, if_pos rfl]
    · have hq : ¬ q = kv.1 := fun hh => h hh.symm
      rw [if_neg hq, List.any_cons, decide_eq_false h, Bool.false_or]

/-- C9.  Reconciling a create twice with the same authoritative result yields
the same cache as reconciling once: useCreateTodo.onSuccess replaces the
placeholder matched by its temporary id in every snapshotted entry, and this
replacement is idempotent on keys and data of every entry. -/
theorem create_reconcile_idempotent (newTodo : Todo) (tempId : String)
    (snap : Snapshot) (c : TodoCache) :
    (createOnSuccess newTodo tempId snap (createOnSuccess newTodo tempId snap c)).keys
      = (createOnSuccess newTodo tempId snap c).keys
    ∧ ∀ q,
      (createOnSuccess newTodo tempId snap (createOnSuccess newTodo tempId snap c)).data q
        = (createOnSuccess newTodo tempId snap c).data q := by
  refine ⟨?_, fun q => ?_⟩
  · rw [createOnSuccess_keys, createOnSuccess_keys]
  · rw [createOnSuccess_data, createOnSuccess_data]
    by_cases hs : snap.any (fun kv => decide (kv.1 = q)) = true
    · rw [if_pos hs, if_pos hs, omap_replaceTemp_idem]
    · rw [if_neg hs, if_neg hs]

/-- Helper: Nat.digitChar is injective on decimal digits. -/
theorem digitChar_inj_lt10 :
    ∀ a, a < 10 → ∀ b, b < 10 → Nat.digitChar a = Nat.digitChar b → a = b := by decide

/-- Helper: the digit accumulator of Nat.toDigitsCore is a suffix. -/
theorem toDigitsCore_append :
    ∀ (fuel n : Nat) (ds : List Char),
      Nat.toDigitsCore 10 fuel n ds = Nat.toDigitsCore 10 fuel n [] ++ ds := by
  intro fuel
  induction fuel with
  | zero => intro n ds; simp [Nat.toDigitsCore]
  | succ f ih =>
    intro n ds
    simp only [Nat.toDigitsCore]
    by_cases h : n / 10 = 0
    · simp [h]
    · simp only [if_neg h]
      rw [ih (n / 10) (Nat.digitChar (n % 10) :: ds), ih (n / 10) [Nat.digitChar (n % 10)]]
      simp

/-- Helper: Nat.toDigitsCore does not depend on its fuel once the fuel
exceeds the number. -/
theorem toDigitsCore_fuel :
    ∀ (n fuel : Nat) (ds : List Char), n < fuel →
      Nat.toDigitsCore 10 fuel n ds = Nat.toDigitsCore 10 (n + 1) n ds := by
  intro n
  induction n using Nat.strong_induction_on with
  | _ n ih =>
    intro fuel ds hf
    cases fuel with
    | zero => omega
    | succ f =>
      simp only [Nat.toDigitsCore]
      by_cases h : n / 10 = 0
      · simp [h]
      · simp only [if_neg h]
        have hn10 : 10 ≤ n := by
          by_contra hc
          exact h (Nat.div_eq_of_lt (by omega))
        have hlt : n / 10 < n := Nat.div_lt_self (by omega) (by omega)
        rw [ih (n / 10) hlt f _ (by omega), ih (n / 10) hlt n _ (by omega)]

/-- Helper: decimal digits of a single-digit number. -/
theorem toDigits_small (n : Nat) (h : n < 10) :
    Nat.toDigits 10 n = [Nat.digitChar n] := by
  simp only [Nat.toDigits, Nat.toDigitsCore]
  rw [if_pos (Nat.div_eq_of_lt h), Nat.mod_eq_of_lt h]

/-- Helper: decimal-digit recurrence for numbers of two or more digits. -/
theorem toDigits_rec (n : Nat) (h : 10 ≤ n) :
    Nat.toDigits 10 n = Nat.toDigits 10 (n / 10) ++ [Nat.digitChar (n % 10)] := by
  have hpos : 0 < n / 10 := Nat.div_pos h (by omega)
  have hlt : n / 10 < n := Nat.div_lt_self (by omega) (by omega)
  simp only [Nat.toDigits, Nat.toDigitsCore]
  rw [if_neg (by omega)]
  rw [toDigitsCore_fuel (n / 10) n _ hlt, toDigitsCore_append]
  congr 1

/-- Helper: a decimal digit list is never empty. -/
theorem toDigits_ne_nil (n : Nat) : Nat.toDigits 10 n ≠ [] := by
  by_cases h : n < 10
  · rw [toDigits_small n h]
    simp
  · rw [toDigits_rec n (by omega)]
    simp

/-- Helper: the decimal digit list determines the number. -/
theorem toDigits_inj :
    ∀ n m : Nat, Nat.toDigits 10 n = Nat.toDigits 10 m → n = m := by
  intro n
  induction n using Nat.strong_induction_on with
  | _ n ih =>
    intro m h
    by_cases hn : n < 10
    · by_cases hm : m < 10
      · rw [toDigits_small n hn, toDigits_small m hm] at h
        injection h with h1 _
        exact digitChar_inj_lt10 n hn m hm h1
      · rw [toDigits_small n hn, toDigits_rec m (by omega)] at h
        have hlen := congrArg List.length h
        simp only [List.length_append, List.length_cons, List.length_nil] at hlen
        have hpos : 0 < (Nat.toDigits 10 (m / 10)).length :=
          List.length_pos.mpr (toDigits_ne_nil (m / 10))
        omega
    · by_cases hm : m < 10
      · rw [toDigits_rec n (by omega), toDigits_small m hm] at h
        have hlen := congrArg List.length h
        simp only [List.length_append, List.length_cons, List.length_nil] at hlen
        have hpos : 0 < (Nat.toDigits 10 (n / 10)).length :=
          List.length_pos.mpr (toDigits_ne_nil (n / 10))
        omega
      · rw [toDigits_rec n (by omega), toDigits_rec m (by omega)] at h
        obtain ⟨h1, h2⟩ := List.append_inj' h rfl
        have hdiv : n / 10 = m / 10 :=
          ih (n / 10) (Nat.div_lt_self (by omega) (by omega)) (m / 10) h1
        injection h2 with h2c _
        have hmod : n % 10 = m % 10 :=
          digitChar_inj_lt10 (n % 10) (Nat.mod_lt n (by omega)) (m % 10)
            (Nat.mod_lt m (by omega)) h2c
        omega

/-- Helper: the decimal rendering of a Nat determines it. -/
theorem repr_inj_nat (n m : Nat) (h : Nat.repr n = Nat.repr m) : n = m :=
  toDigits_inj n m (congrArg String.data h)

/-- Helper: "temp_" + Date.now() determines the timestamp. -/
theorem mkTempId_inj (t1 t2 : Nat) (h : mkTempId t1 = mkTempId t2) : t1 = t2 := by
  apply repr_inj_nat
  have hd := congrArg String.data h
  simp only [mkTempId, String.data_append] at hd
  exact String.ext (List.append_cancel_left hd)

/-- C10 counterexample: two distinct create invocations whose onMutate calls
observe the same Date.now() millisecond receive identical temporary ids, so
matching the optimistic placeholder by temporary id is ambiguous between
them — the claim that concurrently live creates always get distinct
temporary ids is false. -/
theorem tempId_same_millisecond_collision :
    ({ invocationId := 0, now := 1000 } : CreateInvocation)
      ≠ ({ invocationId := 1, now := 1000 } : CreateInvocation)
    ∧ tempIdOf { invocationId := 0, now := 1000 }
      = tempIdOf { invocationId := 1, now := 1000 } :=
  ⟨by decide, rfl⟩

/-- C10 (amended).  The temporary id is derived solely from the observed
millisecond timestamp: the ids of two create invocations are distinct if and
only if the invocations observed distinct Date.now() values.  Overlapping
creates in different milliseconds are matched unambiguously; creates within
the same millisecond collide. -/
theorem tempId_distinct_iff_distinct_timestamps (i1 i2 : CreateInvocation) :
    tempIdOf i1 = tempIdOf i2 ↔ i1.now = i2.now := by
  constructor
  · exact fun h => mkTempId_inj i1.now i2.now h
  · intro h
    rw [tempIdOf, tempIdOf, h]

end Persyste
